import Mathlib

/- Verification development for the shopping-assistant chat core:
   the backchannel (CIBA) authorization coordinator, the remote execution
   gateway (thread cache, retries, SSE stream folding) and the stream
   reclassifier.  Each definition is a shallow embedding of the
   corresponding TypeScript function; doc comments name the source. -/

/-- Substring test, modelling JavaScript `String.prototype.includes`. -/
def strContainsAux (n : List Char) : List Char → Bool
  | [] => n.isEmpty
  | c :: rest => List.isPrefixOf n (c :: rest) || strContainsAux n rest

/-- `h.includes n` for strings. -/
def strContains (h n : String) : Bool :=
  strContainsAux n.toList h.toList

/-! ## Authorization state (CIBA coordinator) -/

/-- The values of `authorizationState.status`
    (`ciba-provider.ts` / `ciba-standard-langchain.ts`). -/
inductive AuthStatus
  | idle
  | requested
  | pending
  | approved
  | denied
deriving DecidableEq, Repr

/-- The process-wide authorization state: `{ status, message? }`. -/
structure AuthState where
  status : AuthStatus
  message : Option String := none
deriving DecidableEq, Repr

/-- The spec's status chain, as single allowed steps:
    `idle → requested → pending → {approved, denied} → idle`. -/
def chainStepB : AuthStatus → AuthStatus → Bool
  | .idle, .requested => true
  | .requested, .pending => true
  | .pending, .approved => true
  | .pending, .denied => true
  | .approved, .idle => true
  | .denied, .idle => true
  | _, _ => false

/-- A state change performed by an operation respects the chain when it is
    a no-op or an allowed single step. -/
def chainOk (before after : AuthStatus) : Bool :=
  before == after || chainStepB before after

/-- `getAuthorizationState` (ciba-provider, `manual-ciba.ts` region 140-152):
    before returning, it reconciles with the checkout tool: when the shop
    tool reports `approved` while the main status is still `requested`, the
    status is set directly to `approved`.  `shopApproved` models
    `getShopAuthState()?.status === 'approved'`. -/
def getAuthorizationState (shopApproved : Bool) (st : AuthState) : AuthState :=
  if shopApproved && st.status == AuthStatus.requested then
    { st with status := AuthStatus.approved }
  else st

/-- The state write performed by the `bindingMessage` callback
    (ciba-provider 255-266): `authorizationState = { status: 'requested',
    message }` where `message` is the derived binding message. -/
def bindingMessageTransition (message : String) (_st : AuthState) : AuthState :=
  { status := AuthStatus.requested, message := some message }

/-- First state write of `onAuthorizationRequest` (ciba-provider 274-315):
    `authorizationState.status = 'pending'` (field mutation, message kept). -/
def onAuthorizationRequestStart (st : AuthState) : AuthState :=
  { st with status := AuthStatus.pending }

/-- Second state write of `onAuthorizationRequest`: after `await poll`,
    a truthy result sets `approved`; a null result or a thrown polling
    error sets `denied`. -/
def onAuthorizationRequestResolve (pollOk : Bool) (st : AuthState) : AuthState :=
  if pollOk then { st with status := AuthStatus.approved }
  else { st with status := AuthStatus.denied }

/-- `resetAuthorizationState`: `authorizationState = { status: 'idle' }`. -/
def resetAuthorizationState (_st : AuthState) : AuthState :=
  { status := AuthStatus.idle }

/-! ## Standards-based CIBA wrapper (`withCIBAAuthorization`, exported as
    `withAsyncAuthorization` from ciba-standard-langchain) -/

/-- Resolution of `performCIBAAuthorizationWithEnv`: tokens (approved),
    null (user denied), or a thrown initiation/polling error. -/
inductive PollOutcome
  | approved
  | denied
  | failed (msg : String)
deriving DecidableEq, Repr

/-- Observable record of one `withCIBAAuthorization(tool)` invocation:
    the sequence of statuses assigned to the global state, the final state,
    whether (and under which status) the wrapped tool ran, and the
    call's result. -/
structure CIBARun where
  trace : List AuthStatus
  final : AuthState
  invoked : Bool
  statusAtInvoke : Option AuthStatus
  outcome : Except String String
deriving Repr

/-- `withCIBAAuthorization` (ciba-standard-langchain): extract the user id
    (modelled by the `userId` argument, `none` when no path resolves one);
    set state `requested` with the binding message, then `pending`; await the
    CIBA flow; on tokens set `approved` and invoke the wrapped tool; on null
    set `denied` and throw an AccessDenied error; any error reaching the
    outer catch sets `denied` again and is rethrown wrapped in
    `CIBA authorization failed: ...`.  The wrapped tool call sits inside the
    try, so a tool failure after approval is also caught there. -/
def withCIBAAuthorization (st0 : AuthState) (userId : Option String)
    (bmsg : String) (poll : PollOutcome) (actionResult : Except String String) :
    CIBARun :=
  match userId with
  | none =>
    { trace := [], final := st0, invoked := false, statusAtInvoke := none,
      outcome := .error "User ID required for CIBA authorization" }
  | some _ =>
    let s1 : AuthState := { status := .requested, message := some bmsg }
    let s2 : AuthState := { s1 with status := .pending }
    match poll with
    | .approved =>
      let s3 : AuthState := { s2 with status := .approved }
      match actionResult with
      | .ok r =>
        { trace := [.requested, .pending, .approved], final := s3,
          invoked := true, statusAtInvoke := some AuthStatus.approved,
          outcome := .ok r }
      | .error e =>
        let s4 : AuthState := { s3 with status := .denied }
        { trace := [.requested, .pending, .approved, .denied], final := s4,
          invoked := true, statusAtInvoke := some AuthStatus.approved,
          outcome := .error ("CIBA authorization failed: " ++ e) }
    | .denied =>
      let s3 : AuthState := { s2 with status := .denied }
      { trace := [.requested, .pending, .denied, .denied], final := s3,
        invoked := false, statusAtInvoke := none,
        outcome := .error
          ("CIBA authorization failed: The user has denied the request") }
    | .failed msg =>
      let s3 : AuthState := { s2 with status := .denied }
      { trace := [.requested, .pending, .denied], final := s3,
        invoked := false, statusAtInvoke := none,
        outcome := .error ("CIBA authorization failed: " ++ msg) }

/-! ## Polling loop (`pollCIBAResult`, ciba-standard) -/

/-- Per-attempt behavior of the token endpoint, as classified by the code:
    HTTP success with tokens, one of the recognized error codes, or a
    network-level failure while fetching/decoding. -/
inductive TokenAttempt
  | ok
  | errPending
  | errDenied
  | errExpired
  | errOther (code desc : String)
  | network (msg : String)
deriving DecidableEq, Repr

/-- Result of `pollCIBAResult`: tokens, null (denied), or a thrown `Error`
    identified by its message string. -/
inductive PollResult
  | tokens
  | deniedNull
  | thrown (msg : String)
deriving DecidableEq, Repr

/-- Message of the `expired_token` throw (ciba-standard line 213). -/
def expiredMsg : String :=
  "Authorization request expired - user did not respond in time"

/-- Message of the unrecognized-error throw (line 217). -/
def pollingErrorMsg (code desc : String) : String :=
  "CIBA polling error: " ++ code ++ " - " ++ desc

/-- Message thrown when the catch block hits the last attempt (line 228). -/
def failedAfterMaxMsg : String :=
  "CIBA polling failed after maximum attempts"

/-- Message thrown when the loop exhausts all attempts (line 235). -/
def timeoutMsg : String :=
  "CIBA authorization timeout - user did not respond in time"

/-- The catch block of the polling loop (lines 219-230): a caught error is
    rethrown only when its message contains `"CIBA polling error"`;
    otherwise it is swallowed and polling continues, except on the final
    attempt where `failedAfterMaxMsg` is thrown.  `continue` is what the
    caller does when the error is swallowed. -/
def pollCatch (errMsg : String) (isLast : Bool) (cont : PollResult) :
    PollResult :=
  if strContains errMsg "CIBA polling error" then .thrown errMsg
  else if isLast then .thrown failedAfterMaxMsg
  else cont

/-- The attempt loop of `pollCIBAResult` (lines 161-231), attempts numbered
    `1..maxAttempts`; `fuel` is the number of attempts remaining, so the
    recursion mirrors `for (let attempt = 1; attempt <= maxAttempts; ...)`.
    Every throw inside the loop body (`expired_token`, other error codes)
    happens inside the `try`, so it goes through `pollCatch`. -/
def pollLoop (responses : Nat → TokenAttempt) (maxAttempts : Nat) :
    Nat → Nat → PollResult
  | _, 0 => .thrown timeoutMsg
  | attempt, fuel + 1 =>
    let isLast := attempt == maxAttempts
    match responses attempt with
    | .ok => .tokens
    | .errPending => pollLoop responses maxAttempts (attempt + 1) fuel
    | .errDenied => .deniedNull
    | .errExpired =>
      pollCatch expiredMsg isLast
        (pollLoop responses maxAttempts (attempt + 1) fuel)
    | .errOther code desc =>
      pollCatch (pollingErrorMsg code desc) isLast
        (pollLoop responses maxAttempts (attempt + 1) fuel)
    | .network msg =>
      pollCatch msg isLast
        (pollLoop responses maxAttempts (attempt + 1) fuel)

/-- `pollCIBAResult(config, authReqId, interval, maxAttempts)` with the
    per-attempt endpoint behavior abstracted as `responses`. -/
def pollCIBAResult (maxAttempts : Nat) (responses : Nat → TokenAttempt) :
    PollResult :=
  pollLoop responses maxAttempts 1 maxAttempts

/-! ## JSON values and `JSON.parse` / `JSON.stringify`

All text processing below works on `List Char` with explicit fuel, so that
every definition is structurally recursive and evaluates inside the kernel. -/

/-- JSON values.  Numeric literals keep their lexeme: no arithmetic is ever
    performed on them by the code under study. -/
inductive Json where
  | null
  | bool (b : Bool)
  | num (raw : String)
  | str (s : String)
  | arr (elems : List Json)
  | obj (fields : List (String × Json))

/-- The double-quote character. -/
def quoteChar : Char := Char.ofNat 34

/-- The backslash character. -/
def backslashChar : Char := Char.ofNat 92

/-- The opening-brace character. -/
def lbraceChar : Char := Char.ofNat 123

/-- The closing-brace character. -/
def rbraceChar : Char := Char.ofNat 125

/-- String equality through the underlying character lists. -/
def strEqL (a b : String) : Bool := a.data == b.data

/-- Whitespace recognized by JSON and by `String.prototype.trim` on the
    ASCII inputs that occur here. -/
def isWsChar (c : Char) : Bool :=
  c == ' ' || c == '\t' || c == '\n' || c == '\r'

/-- Drop leading whitespace. -/
def skipWsL (xs : List Char) : List Char := xs.dropWhile isWsChar

/-- `trim`: drop whitespace from both ends. -/
def trimL (xs : List Char) : List Char :=
  ((xs.dropWhile isWsChar).reverse.dropWhile isWsChar).reverse

/-- Property-table lookup: first field with the given name.  (The parser
    below collapses duplicate keys the way `JSON.parse` does, so fields
    seen here are unique.) -/
def getFieldAux : List (String × Json) → String → Option Json
  | [], _ => none
  | (k', v) :: rest, k => if strEqL k' k then some v else getFieldAux rest k

/-- JavaScript property access `j[k]` on a decoded JSON value:
    `undefined` (here `none`) unless `j` is an object with that field. -/
def getField : Json → String → Option Json
  | .obj fields, k => getFieldAux fields k
  | _, _ => none

/-- Truthiness of a number lexeme: some nonzero digit in the mantissa. -/
def numTruthy (raw : String) : Bool :=
  (raw.data.takeWhile (fun c => !(c == 'e' || c == 'E'))).any
    (fun c => '1' ≤ c && c ≤ '9')

/-- JavaScript truthiness of a decoded JSON value. -/
def jsonTruthy : Json → Bool
  | .null => false
  | .bool b => b
  | .num raw => numTruthy raw
  | .str s => !s.data.isEmpty
  | .arr _ => true
  | .obj _ => true

/-- Value of a hexadecimal digit. -/
def hexVal (c : Char) : Option Nat :=
  if '0' ≤ c && c ≤ '9' then some (c.toNat - 48)
  else if 'a' ≤ c && c ≤ 'f' then some (c.toNat - 87)
  else if 'A' ≤ c && c ≤ 'F' then some (c.toNat - 55)
  else none

/-- Single-character JSON string escapes. -/
def escChar (e : Char) : Option Char :=
  if e == quoteChar then some quoteChar
  else if e == backslashChar then some backslashChar
  else if e == '/' then some '/'
  else if e == 'n' then some '\n'
  else if e == 't' then some '\t'
  else if e == 'r' then some '\r'
  else if e == 'b' then some (Char.ofNat 8)
  else if e == 'f' then some (Char.ofNat 12)
  else none

/-- Body of a JSON string literal, after the opening quote; returns the
    decoded string and the input after the closing quote.  `\u` escapes
    decode their code unit (surrogate pairs are not recombined; none occur
    in the inputs considered). -/
def parseJsonStrAux : Nat → List Char → List Char → Option (String × List Char)
  | 0, _, _ => none
  | _ + 1, _, [] => none
  | fuel + 1, acc, c :: rest =>
    if c == quoteChar then some (String.mk acc.reverse, rest)
    else if c == backslashChar then
      match rest with
      | [] => none
      | e :: rest2 =>
        if e == 'u' then
          match rest2 with
          | h1 :: h2 :: h3 :: h4 :: rest3 =>
            match hexVal h1, hexVal h2, hexVal h3, hexVal h4 with
            | some a, some b, some c2, some d =>
              parseJsonStrAux fuel
                (Char.ofNat (((a * 16 + b) * 16 + c2) * 16 + d) :: acc) rest3
            | _, _, _, _ => none
          | _ => none
        else
          match escChar e with
          | some ec => parseJsonStrAux fuel (ec :: acc) rest2
          | none => none
    else parseJsonStrAux fuel (c :: acc) rest

/-- Decimal digit test. -/
def isDigitC (c : Char) : Bool := '0' ≤ c && c ≤ '9'

/-- Optional fraction part of a number lexeme. -/
def parseFracPart (xs : List Char) : Option (List Char × List Char) :=
  match xs with
  | c :: r =>
    if c == '.' then
      let ds := r.takeWhile isDigitC
      if ds.isEmpty then none else some ('.' :: ds, r.drop ds.length)
    else some ([], c :: r)
  | [] => some ([], [])

/-- Optional exponent part of a number lexeme. -/
def parseExpPart (xs : List Char) : Option (List Char × List Char) :=
  match xs with
  | c :: r =>
    if c == 'e' || c == 'E' then
      let (sgn, r1) : List Char × List Char :=
        match r with
        | s :: r' => if s == '+' || s == '-' then ([s], r') else ([], r)
        | [] => ([], [])
      let ds := r1.takeWhile isDigitC
      if ds.isEmpty then none else some (c :: (sgn ++ ds), r1.drop ds.length)
    else some ([], c :: r)
  | [] => some ([], [])

/-- Number lexeme: `-? digits frac? exp?`. -/
def parseJsonNum (xs : List Char) : Option (String × List Char) :=
  let (sgn, xs1) : List Char × List Char :=
    match xs with
    | c :: r => if c == '-' then ([c], r) else ([], xs)
    | [] => ([], [])
  let ip := xs1.takeWhile isDigitC
  if ip.isEmpty then none
  else
    match parseFracPart (xs1.drop ip.length) with
    | none => none
    | some (fp, xs2) =>
      match parseExpPart xs2 with
      | none => none
      | some (ep, xs3) => some (String.mk (sgn ++ ip ++ fp ++ ep), xs3)

/-- Object-member accumulation with JavaScript semantics: a duplicate key
    overwrites the earlier value in place. -/
def objInsert : List (String × Json) → String → Json → List (String × Json)
  | [], k, v => [(k, v)]
  | (k', v') :: rest, k, v =>
    if strEqL k' k then (k', v) :: rest else (k', v') :: objInsert rest k v

/-- Parser mode: a plain value, the members of an object being read, or the
    elements of an array being read.  Encoding the modes in one data type
    keeps the parser a single structurally recursive function on fuel. -/
inductive PMode where
  | val
  | members (acc : List (String × Json))
  | elems (acc : List Json)

/-- Recursive-descent JSON parser, modelling `JSON.parse`. -/
def parseJ : Nat → PMode → List Char → Option (Json × List Char)
  | 0, _, _ => none
  | fuel + 1, .val, xs0 =>
    let xs := skipWsL xs0
    match xs with
    | [] => none
    | c :: rest =>
      if c == lbraceChar then
        let r1 := skipWsL rest
        match r1 with
        | d :: r2 => if d == rbraceChar then some (.obj [], r2)
                     else parseJ fuel (.members []) r1
        | [] => none
      else if c == '[' then
        let r1 := skipWsL rest
        match r1 with
        | d :: r2 => if d == ']' then some (.arr [], r2)
                     else parseJ fuel (.elems []) r1
        | [] => none
      else if c == quoteChar then
        match parseJsonStrAux (rest.length + 1) [] rest with
        | some (s, r) => some (.str s, r)
        | none => none
      else if List.isPrefixOf "true".data xs then some (.bool true, xs.drop 4)
      else if List.isPrefixOf "false".data xs then some (.bool false, xs.drop 5)
      else if List.isPrefixOf "null".data xs then some (.null, xs.drop 4)
      else
        match parseJsonNum xs with
        | some (s, r) => some (.num s, r)
        | none => none
  | fuel + 1, .members acc, xs0 =>
    match skipWsL xs0 with
    | [] => none
    | c :: rest =>
      if c == quoteChar then
        match parseJsonStrAux (rest.length + 1) [] rest with
        | some (k, r1) =>
          match skipWsL r1 with
          | ':' :: r2 =>
            (match parseJ fuel .val r2 with
             | some (v, r3) =>
               (match skipWsL r3 with
                | ',' :: r4 => parseJ fuel (.members (objInsert acc k v)) r4
                | d :: r4 =>
                  if d == rbraceChar then some (.obj (objInsert acc k v), r4)
                  else none
                | [] => none)
             | none => none)
          | _ => none
        | none => none
      else none
  | fuel + 1, .elems acc, xs0 =>
    match parseJ fuel .val xs0 with
    | some (v, r1) =>
      (match skipWsL r1 with
       | ',' :: r2 => parseJ fuel (.elems (acc ++ [v])) r2
       | ']' :: r2 => some (.arr (acc ++ [v]), r2)
       | _ => none)
    | none => none

/-- `JSON.parse` on a character list: a single value with nothing but
    whitespace around it. -/
def jsonParseL (payload : List Char) : Option Json :=
  match parseJ (payload.length * 2 + 16) .val payload with
  | some (j, rest) => if (skipWsL rest).isEmpty then some j else none
  | none => none

/-- `JSON.parse` on a string. -/
def jsonParse (s : String) : Option Json := jsonParseL s.data

/-- Hexadecimal digit for serialization. -/
def hexDigit (n : Nat) : Char :=
  if n < 10 then Char.ofNat (48 + n) else Char.ofNat (87 + n)

/-- Escapes used by `JSON.stringify` inside string literals. -/
def escapeJsonChar (c : Char) : List Char :=
  if c == quoteChar then [backslashChar, quoteChar]
  else if c == backslashChar then [backslashChar, backslashChar]
  else if c == '\n' then [backslashChar, 'n']
  else if c == '\t' then [backslashChar, 't']
  else if c == '\r' then [backslashChar, 'r']
  else if c.toNat < 32 then
    [backslashChar, 'u', '0', '0', hexDigit (c.toNat / 16), hexDigit (c.toNat % 16)]
  else [c]

/-- A JSON string literal for `s`. -/
def strToJsonLit (s : String) : String :=
  String.mk (quoteChar :: (s.data.map escapeJsonChar).flatten ++ [quoteChar])

/-- Comma-join. -/
def joinComma (xs : List String) : String := String.intercalate "," xs

/-- `JSON.stringify` on decoded JSON values, with fuel for the nested
    recursion (number lexemes round-trip unchanged for the values that
    occur here). -/
def jsonStringifyF : Nat → Json → String
  | 0, _ => ""
  | fuel + 1, j =>
    match j with
    | .null => "null"
    | .bool true => "true"
    | .bool false => "false"
    | .num raw => raw
    | .str s => strToJsonLit s
    | .arr xs => "[" ++ joinComma (xs.map (jsonStringifyF fuel)) ++ "]"
    | .obj fs =>
      String.mk [lbraceChar] ++
        joinComma (fs.map (fun kv => strToJsonLit kv.1 ++ ":" ++ jsonStringifyF fuel kv.2)) ++
        String.mk [rbraceChar]

mutual

/-- Structural size of a JSON value, used as recursion fuel. -/
def jsonSize : Json → Nat
  | .null => 1
  | .bool _ => 1
  | .num _ => 1
  | .str _ => 1
  | .arr xs => 1 + jsonSizeL xs
  | .obj fs => 1 + jsonSizeFields fs

/-- Size of a list of JSON values. -/
def jsonSizeL : List Json → Nat
  | [] => 0
  | x :: rest => jsonSize x + jsonSizeL rest

/-- Size of an object field list. -/
def jsonSizeFields : List (String × Json) → Nat
  | [] => 0
  | (_, v) :: rest => jsonSize v + jsonSizeFields rest

end

/-- `JSON.stringify`; `jsonSize` dominates the nesting depth. -/
def jsonStringify (j : Json) : String := jsonStringifyF (jsonSize j) j

/-! ## Gateway SSE stream decoding (`LangGraphClient.parseSSE`, planner.ts) -/

/-- Events delivered to `onEvent`: the `[DONE]` sentinel, a decoded JSON
    payload, or a payload passed through as text. -/
inductive SSEEvent where
  | done
  | json (j : Json)
  | text (t : String)

/-- Split off a leftmost occurrence of `sep`; accumulator-based worker with
    fuel (one unit per character consumed). -/
def splitOnLAux (sep : List Char) : Nat → List Char → List Char → List (List Char)
  | 0, acc, _ => [acc.reverse]
  | fuel + 1, acc, xs =>
    if List.isPrefixOf sep xs then
      acc.reverse :: splitOnLAux sep fuel [] (xs.drop sep.length)
    else
      match xs with
      | [] => [acc.reverse]
      | c :: rest => splitOnLAux sep fuel (c :: acc) rest

/-- `xs.split(sep)` for a literal separator, as in JavaScript. -/
def splitOnL (sep xs : List Char) : List (List Char) :=
  splitOnLAux sep (xs.length + 1) [] xs

/-- Decode one completed block: trim it, collect the `data:` lines, join
    them with newlines, and interpret the payload (planner.ts 119-128). -/
def parseBlock (block : List Char) : Option SSEEvent :=
  let b := trimL block
  if b.isEmpty then none
  else
    let lines := splitOnL ['\n'] b
    let dataLines := lines.filterMap fun l =>
      if List.isPrefixOf "data:".data l then some (trimL (l.drop 5)) else none
    match dataLines with
    | [] => none
    | _ =>
      let payload := List.intercalate ['\n'] dataLines
      if payload == "[DONE]".data then some .done
      else
        match jsonParseL payload with
        | some j => some (.json j)
        | none => some (.text (String.mk payload))

/-- The `while ((idx = buf.indexOf('\n\n')) !== -1)` loop: all completed
    blocks, and the remaining buffer. -/
def splitCompleteBlocks (buf : List Char) : List (List Char) × List Char :=
  let parts := splitOnL ('\n' :: ['\n']) buf
  (parts.dropLast, (parts.getLast?).getD [])

/-- Deliver the events of the completed blocks in order; a `[DONE]` payload
    emits the done event and returns from `parseSSE` (nothing after it is
    processed). -/
def consumeBlocks : List (List Char) → List SSEEvent × Bool
  | [] => ([], false)
  | b :: rest =>
    match parseBlock b with
    | none => consumeBlocks rest
    | some .done => ([SSEEvent.done], true)
    | some ev =>
      let (evs, term) := consumeBlocks rest
      (ev :: evs, term)

/-- End-of-stream flush (planner.ts 131-140): the remaining buffered text is
    split into lines, trimmed, and each `data:` line is interpreted;
    `[DONE]` again stops everything. -/
def flushLines : List (List Char) → List SSEEvent
  | [] => []
  | l :: rest =>
    if List.isPrefixOf "data:".data l then
      let payload := trimL (l.drop 5)
      if payload == "[DONE]".data then [SSEEvent.done]
      else
        (match jsonParseL payload with
         | some j => SSEEvent.json j
         | none => SSEEvent.text (String.mk payload)) :: flushLines rest
    else flushLines rest

/-- Flush the final buffer when the transport ends without `[DONE]`. -/
def flushBuffer (buf : List Char) : List SSEEvent :=
  if (trimL buf).isEmpty then []
  else flushLines (((splitOnL ['\n'] buf).map trimL).filter (fun l => !l.isEmpty))

/-- Main loop of `parseSSE`: accumulate each transport read into the buffer,
    decode every completed block, stop at `[DONE]`, and flush the tail at
    end of stream. -/
def parseSSEGo : List Char → List String → List SSEEvent
  | buf, [] => flushBuffer buf
  | buf, r :: rs =>
    let buf1 := buf ++ r.data
    let (blocks, buf2) := splitCompleteBlocks buf1
    let (evs, term) := consumeBlocks blocks
    if term then evs else evs ++ parseSSEGo buf2 rs

/-- `parseSSE(reader, onEvent)` with the transport reads given as a list of
    decoded strings; the result is the sequence of events delivered. -/
def parseSSE (reads : List String) : List SSEEvent :=
  parseSSEGo [] reads

/-! ## Folding the stream into an agent result
    (`callAgentWithStream`, planner.ts 173-209) -/

/-- The gateway's result shape `{ messages, content }`. -/
structure AgentCallResult where
  messages : List Json
  content : String

/-- Field equal to a given string (`m.type === 'ai'` etc.). -/
def isStrField (m : Json) (k v : String) : Bool :=
  match getField m k with
  | some (.str s) => strEqL s v
  | _ => false

/-- `typeof m.content === 'string' ? m.content : JSON.stringify(m.content)`. -/
def contentToString : Json → String
  | .str s => s
  | other => jsonStringify other

/-- The selection test of the newest-to-oldest scan:
    `(m.type === 'ai' || m.role === 'assistant') && m.content`. -/
def msgIsAssistantWithContent (m : Json) : Bool :=
  (isStrField m "type" "ai" || isStrField m "role" "assistant") &&
    (match getField m "content" with
     | some c => jsonTruthy c
     | none => false)

/-- Worker for the newest-to-oldest scan, applied to the reversed list. -/
def lastAssistantContentAux : List Json → Option String
  | [] => none
  | m :: rest =>
    if msgIsAssistantWithContent m then
      some (contentToString ((getField m "content").getD Json.null))
    else lastAssistantContentAux rest

/-- `for (let i = messages.length - 1; i >= 0; i--) { ... break; }`:
    content of the newest assistant-authored message with truthy content. -/
def lastAssistantContent (ms : List Json) : Option String :=
  lastAssistantContentAux ms.reverse

/-- Accumulated stream state: latest `messages` array and `lastContent`. -/
structure StreamFold where
  messages : List Json
  lastContent : String

/-- The `onEvent` handler of `callAgentWithStream` (planner.ts 176-195). -/
def handleEvent (st : StreamFold) (ev : SSEEvent) : StreamFold :=
  match ev with
  | .done => st
  | .json data =>
    match getField data "messages" with
    | some (Json.arr ms) =>
      { messages := ms,
        lastContent := (lastAssistantContent ms).getD st.lastContent }
    | _ =>
      if isStrField data "event" "messages/partial" then
        match getField data "partial" with
        | some p =>
          if jsonTruthy p then
            { st with lastContent :=
                if st.lastContent.data.isEmpty then contentToString p
                else st.lastContent }
          else st
        | none => st
      else st
  | .text t => { st with lastContent := t }

/-- After the stream: a final rescan when no content was found but messages
    exist, then the `{ messages, content }` result (planner.ts 197-209). -/
def foldStreamResult (evs : List SSEEvent) : AgentCallResult :=
  let st := evs.foldl handleEvent { messages := [], lastContent := "" }
  let lc :=
    if st.lastContent.data.isEmpty && !st.messages.isEmpty then
      (lastAssistantContent st.messages).getD st.lastContent
    else st.lastContent
  { messages :=
      if st.messages.isEmpty then
        [Json.obj [("role", Json.str "assistant"), ("content", Json.str lc)]]
      else st.messages,
    content := lc }

/-! ## Conversation-thread cache (`ensureThread`, `evictStaleThreads`) -/

/-- Association-list update with overwrite (the `Map.set` of the caches). -/
def alistSet {β : Type} (m : List (String × β)) (k : String) (v : β) :
    List (String × β) :=
  (k, v) :: m.filter (fun p => !strEqL p.1 k)

/-- Association-list lookup (`Map.get`). -/
def alistGet {β : Type} (m : List (String × β)) (k : String) : Option β :=
  match m with
  | [] => none
  | (k', v) :: rest => if strEqL k' k then some v else alistGet rest k

/-- The two module-level maps `conversationThreadMap` and
    `conversationThreadTimestamps`. -/
structure ThreadCache where
  threads : List (String × String)
  timestamps : List (String × Nat)

/-- Behavior of the remote `POST /threads` call for one invocation:
    a non-ok HTTP status (the code throws), an ok response whose body has
    none of `thread_id`/`id`/`threadId` (the code throws), or a created id. -/
inductive CreateOutcome where
  | httpError (status : Nat) (statusText : String)
  | noId
  | created (tid : String)

/-- `ensureThread(conversationId, userId, agentId?)` (planner.ts 86-107):
    a cached binding is returned immediately with its timestamp refreshed —
    there is no expiry check at lookup; only on a miss is the remote
    creation call issued and its id cached.  `userId`/`agentId` only enter
    the request metadata and are omitted. -/
def ensureThread (st : ThreadCache) (now : Nat) (conversationId : String)
    (create : CreateOutcome) : ThreadCache × Except String String :=
  match alistGet st.threads conversationId with
  | some tid =>
    ({ st with timestamps := alistSet st.timestamps conversationId now }, .ok tid)
  | none =>
    match create with
    | .httpError status statusText =>
      (st, .error ("Failed to create thread: " ++ toString status ++ " " ++ statusText))
    | .noId => (st, .error "LangGraph created thread but returned no id")
    | .created tid =>
      ({ threads := alistSet st.threads conversationId tid,
         timestamps := alistSet st.timestamps conversationId now }, .ok tid)

/-- Staleness test of the sweep: `now - ts > ttlMs` for the conversation's
    timestamp entry. -/
def isStaleAt (st : ThreadCache) (now ttl : Nat) (convId : String) : Bool :=
  match alistGet st.timestamps convId with
  | some ts => decide (now - ts > ttl)
  | none => false

/-- `evictStaleThreads(ttlMs)` (planner.ts 227-237): every conversation
    whose timestamp is idle longer than the TTL is removed from both maps. -/
def evictStaleThreads (st : ThreadCache) (now ttl : Nat) : ThreadCache :=
  { threads := st.threads.filter (fun p => !isStaleAt st now ttl p.1),
    timestamps := st.timestamps.filter (fun p => !decide (now - p.2 > ttl)) }

/-! ## Two concurrent `ensureThread` calls, at await granularity -/

/-- Program counter of one in-flight `ensureThread` call.  The cache lookup
    and the start of the creation `fetch` form one synchronous segment; the
    cache write and return form the continuation after the awaits. -/
inductive TaskPC where
  | start
  | awaitingCreate
  | finished (ret : String)
deriving DecidableEq, Repr

/-- Shared cache plus the two tasks and the number of creation calls
    issued so far. -/
structure ConcState where
  cache : List (String × String)
  createCalls : Nat
  taskA : TaskPC
  taskB : TaskPC
deriving DecidableEq, Repr

/-- One synchronous segment of a task: on `start`, a cache hit finishes
    with the cached id, a miss issues the creation call and suspends; on
    resumption the task writes its created id and finishes. -/
def taskStep (cid tid : String) (cache : List (String × String))
    (pc : TaskPC) (createCalls : Nat) :
    TaskPC × List (String × String) × Nat :=
  match pc with
  | .start =>
    match alistGet cache cid with
    | some t => (.finished t, cache, createCalls)
    | none => (.awaitingCreate, cache, createCalls + 1)
  | .awaitingCreate => (.finished tid, alistSet cache cid tid, createCalls)
  | .finished t => (.finished t, cache, createCalls)

/-- Run one scheduling step: `true` advances task A, `false` task B.
    `tidA`/`tidB` are the ids the remote service returns to each call. -/
def schedStep (cid tidA tidB : String) (s : ConcState) (pickA : Bool) : ConcState :=
  if pickA then
    let (pc, cache, n) := taskStep cid tidA s.cache s.taskA s.createCalls
    { s with taskA := pc, cache := cache, createCalls := n }
  else
    let (pc, cache, n) := taskStep cid tidB s.cache s.taskB s.createCalls
    { s with taskB := pc, cache := cache, createCalls := n }

/-- Run a whole schedule. -/
def runSched (cid tidA tidB : String) (s : ConcState) : List Bool → ConcState
  | [] => s
  | pick :: rest => runSched cid tidA tidB (schedStep cid tidA tidB s pick) rest

/-- Both tasks at their first segment over an empty cache. -/
def initConc : ConcState :=
  { cache := [], createCalls := 0, taskA := .start, taskB := .start }

/-! ## Retry loop of `callAgentWithStream` (planner.ts 144-225) -/

/-- What one attempt of the agent call does: a successful streamed result,
    or a thrown error classified by the transient test
    (`TypeError`, or a message matching `/timeout|network|ECONNRESET|ENOTFOUND/i`). -/
inductive AttemptOutcome where
  | success (r : AgentCallResult)
  | failure (transient : Bool)

/-- The apology produced when a failure is non-transient or the retry
    budget is exhausted (planner.ts 214). -/
def apologyContent (agentId : String) : String :=
  "I apologize, but I\x27m having trouble connecting to the " ++ agentId ++
    " service right now. Please try again in a moment."

/-- The `{ messages, content }` apology result (planner.ts 215). -/
def apologyResult (agentId : String) : AgentCallResult :=
  { messages := [Json.obj [("role", Json.str "assistant"),
                           ("content", Json.str (apologyContent agentId))]],
    content := apologyContent agentId }

/-- The fallback after the `while` loop (planner.ts 223-224); unreachable in
    the actual control flow but part of the function. -/
def loopExitFallback (agentId : String) : AgentCallResult :=
  { messages := [Json.obj [("role", Json.str "assistant"),
                           ("content", Json.str ("I apologize, but I\x27m having trouble connecting to the " ++ agentId ++ " service right now."))]],
    content := "I apologize, but I\x27m having trouble connecting to the " ++ agentId ++ " service right now." }

/-- The retry loop: each list entry is one attempt.  On an error the attempt
    counter advances, and a non-transient error or `attempt > maxRetries`
    returns the apology; otherwise the loop backs off and retries. -/
def callAgentRetryLoop (maxRetries : Nat) (agentId : String) :
    Nat → List AttemptOutcome → AgentCallResult
  | _, [] => loopExitFallback agentId
  | attempt, o :: rest =>
    match o with
    | .success r => r
    | .failure transient =>
      let a := attempt + 1
      if !transient || a > maxRetries then apologyResult agentId
      else callAgentRetryLoop maxRetries agentId a rest

/-- `callAgentWithStream` viewed as its retry loop, with the per-attempt
    outcomes abstracted (the successful-stream case is modelled separately
    by `parseSSE`/`foldStreamResult`). -/
def callAgentWithStream (maxRetries : Nat) (agentId : String)
    (attempts : List AttemptOutcome) : AgentCallResult :=
  callAgentRetryLoop maxRetries agentId 0 attempts

/-- The backoff before a retry (planner.ts 218):
    `baseDelay * Math.pow(2, attempt - 1) + Math.floor(Math.random() * 100)`,
    with the jitter given as an argument in `0..99`. -/
def backoffDelay (baseDelay attempt jitter : Nat) : Nat :=
  baseDelay * 2 ^ (attempt - 1) + jitter

/-! ## Stream reclassifier (`app/api/chat-stream/route.ts`)

Chunks from the agent stream are modelled as `Json` values (a JavaScript
object/array/string/number as decoded data); binary chunks enter the text
path after decoding and are not modelled separately. -/

/-- Truthiness of an optional field (`undefined` is falsy). -/
def jsonTruthyOpt : Option Json → Bool
  | some j => jsonTruthy j
  | none => false

/-- `o === 'v'` for a property that may be absent or of another type. -/
def isStrOptEq (o : Option Json) (v : String) : Bool :=
  match o with
  | some (.str s) => strEqL s v
  | _ => false

mutual

/-- Structural equality of JSON values.  (JavaScript `!==` on objects is
    reference equality; the compared workflow-context values are strings in
    every occurring chunk, where the two coincide.) -/
def jsonBeq : Json → Json → Bool
  | .null, .null => true
  | .bool a, .bool b => a == b
  | .num a, .num b => strEqL a b
  | .str a, .str b => strEqL a b
  | .arr a, .arr b => jsonBeqL a b
  | .obj a, .obj b => jsonBeqFields a b
  | _, _ => false

/-- Elementwise equality of JSON lists. -/
def jsonBeqL : List Json → List Json → Bool
  | [], [] => true
  | a :: as', b :: bs => jsonBeq a b && jsonBeqL as' bs
  | _, _ => false

/-- Elementwise equality of field lists. -/
def jsonBeqFields : List (String × Json) → List (String × Json) → Bool
  | [], [] => true
  | (ka, va) :: as', (kb, vb) :: bs =>
    strEqL ka kb && jsonBeq va vb && jsonBeqFields as' bs
  | _, _ => false

end

/-- Equality on optional JSON values (`null` compared as `none`). -/
def optJsonBeq : Option Json → Option Json → Bool
  | none, none => true
  | some a, some b => jsonBeq a b
  | _, _ => false

/-- ASCII lowercasing of one character. -/
def lowerC (c : Char) : Char :=
  if 'A' ≤ c && c ≤ 'Z' then Char.ofNat (c.toNat + 32) else c

/-- `toLowerCase` on the ASCII inputs that occur here. -/
def toLowerL (xs : List Char) : List Char := xs.map lowerC

/-- Case-insensitive literal match; returns the rest of the input. -/
def matchLitCI : List Char → List Char → Option (List Char)
  | [], xs => some xs
  | _ :: _, [] => none
  | l :: ls, x :: xs => if lowerC l == lowerC x then matchLitCI ls xs else none

/-- One-or-more characters of the class `[a-z_]` with the `i` flag,
    followed by a closing quote; the tail of `/"action"\s*:\s*"[a-z_]+"/i`. -/
def planRegexValuePart (xs : List Char) : Bool :=
  let isActionChar := fun c => ('a' ≤ c && c ≤ 'z') || ('A' ≤ c && c ≤ 'Z') || c == '_'
  let run := xs.takeWhile isActionChar
  if run.isEmpty then false
  else
    match xs.drop run.length with
    | c :: _ => c == quoteChar
    | [] => false

/-- Attempt the planner regex at the current position. -/
def planRegexAt (xs : List Char) : Bool :=
  match matchLitCI (quoteChar :: "action".data ++ [quoteChar]) xs with
  | none => false
  | some r1 =>
    match skipWsL r1 with
    | ':' :: r2 =>
      (match skipWsL r2 with
       | c :: r3 => c == quoteChar && planRegexValuePart r3
       | [] => false)
    | _ => false

/-- `/"action"\s*:\s*"[a-z_]+"/i.test(s)`: the pattern matches at some
    position. -/
def planRegexSearch : List Char → Bool
  | [] => false
  | c :: rest => planRegexAt (c :: rest) || planRegexSearch rest

/-- `isPlanLike` (route.ts 79-94): a trimmed string starting with a brace
    and matching the action-key regex, or an object with a string `action`
    plus a defined `confidence`, or one of the planner/recommendation keys
    truthy.  Other values (and `null`) are not plan-like. -/
def isPlanLike (value : Json) : Bool :=
  match value with
  | .str s =>
    let t := trimL s.data
    (match t with
     | c :: _ => c == lbraceChar
     | [] => false) && planRegexSearch t
  | .null => false
  | v =>
    (match getField v "action" with
     | some (.str _) => (getField v "confidence").isSome
     | _ => false) ||
    (jsonTruthyOpt (getField v "planningRecommendation") ||
     jsonTruthyOpt (getField v "planner") ||
     jsonTruthyOpt (getField v "targetAgent") ||
     jsonTruthyOpt (getField v "recommendedAgent"))

/-- The progress-keyword list of `isStatusLike` (route.ts 272). -/
def statusKeywords : List String :=
  ["thinking", "evaluating", "evaluating next", "agent task", "task completed",
   "completed", "processing", "thinking...", "done", "evaluating next steps",
   "searching", "checking", "adding", "updating", "preparing", "found"]

/-- Approximation of the emoji test of `isStatusLike` (`/\p{Emoji}/u` or the
    explicit surrogate ranges): digits, `#`, `*`, `©`, `®`, the
    miscellaneous-symbol planes and the emoji planes.  No claim below
    depends on this branch. -/
def emojiProp (c : Char) : Bool :=
  let n := c.toNat
  (48 ≤ n && n ≤ 57) || n == 35 || n == 42 || n == 169 || n == 174 ||
  (0x2190 ≤ n && n ≤ 0x2BFF) || (0x1F000 ≤ n && n ≤ 0x1FAFF)

/-- Number of `\s+`-separated words of an already-trimmed text. -/
def countWordsAux : Bool → List Char → Nat
  | _, [] => 0
  | inWord, c :: rest =>
    if isWsChar c then countWordsAux false rest
    else (if inWord then 0 else 1) + countWordsAux true rest

/-- `t.split(/\s+/).length` for trimmed `t`. -/
def countWords (xs : List Char) : Nat := countWordsAux false xs

/-- `isStatusLike` (route.ts 266-282): trimmed, non-empty, at most 200
    characters, and either containing a progress keyword (lowercased) or
    looking like a short emoji-bearing phrase of at most 6 words. -/
def isStatusLike (text : String) : Bool :=
  let t := trimL text.data
  if t.isEmpty then false
  else if t.length > 200 then false
  else
    let lower := toLowerL t
    if statusKeywords.any (fun k => strContainsAux k.data lower) then true
    else if t.any emojiProp && countWords t ≤ 6 then true
    else false

/-- `isEphemeralChunk` (route.ts 285-287): `Boolean(obj?.progress?.ephemeral)`. -/
def isEphemeralChunk (obj : Json) : Bool :=
  jsonTruthyOpt ((getField obj "progress").bind (fun p => getField p "ephemeral"))

/-! ### Metadata extraction (`extractMetadata`, route.ts 97-205) -/

/-- The five metadata kinds the route emits. -/
inductive MetaKind where
  | plannerRecommendation
  | agentRoutingDecision
  | supervisorDecision
  | agentTransition
  | workflowContext
deriving DecidableEq, Repr

/-- The metadata payloads, with the data fields the code projects out of
    the chunk (the wall-clock `timestamp: Date.now()` is omitted). -/
inductive MetaData where
  | plannerRec (data : Json)
  | routing (fromAgent toAgent : Json) (workflowContext : Option Json)
      (dealData pendingProduct : Option Json) (cartPresent : Bool)
  | supervisor (targetAgent : Json) (workflowContext : Option Json)
      (dealPresent pendingPresent cartPresent : Bool)
  | transition (agent : Json) (role timestamp : Option Json)
  | workflowCtx (context : Json) (dealPresent pendingPresent : Bool)

/-- Kind of a metadata payload (its `type` string). -/
def metaKindOf : MetaData → MetaKind
  | .plannerRec _ => .plannerRecommendation
  | .routing _ _ _ _ _ _ => .agentRoutingDecision
  | .supervisor _ _ _ _ _ => .supervisorDecision
  | .transition _ _ _ => .agentTransition
  | .workflowCtx _ _ _ => .workflowContext

/-- `typeof chunk === 'object'` (objects, arrays and `null`). -/
def isObjectTyped : Json → Bool
  | .obj _ => true
  | .arr _ => true
  | .null => true
  | _ => false

/-- `chunk.plannerRecommendation || chunk.planningRecommendation`. -/
def plannerRecValue (chunk : Json) : Option Json :=
  if jsonTruthyOpt (getField chunk "plannerRecommendation") then
    getField chunk "plannerRecommendation"
  else if jsonTruthyOpt (getField chunk "planningRecommendation") then
    getField chunk "planningRecommendation"
  else none

/-- `chunk.next && chunk.next !== '__end__'`. -/
def truthyNext (chunk : Json) : Bool :=
  jsonTruthyOpt (getField chunk "next") &&
    !isStrOptEq (getField chunk "next") "__end__"

/-- `chunk.messages[chunk.messages.length - 1]` when `chunk.messages` is a
    non-empty array. -/
def lastMsgOf (chunk : Json) : Option Json :=
  match getField chunk "messages" with
  | some (.arr ms) => ms.getLast?
  | _ => none

/-- Condition of the agent-routing branch (route.ts 117-121): a pending
    non-terminal `next`, a non-empty message list, and a last message
    attributed to a specialized agent. -/
def matchesRoutingShape (chunk : Json) : Bool :=
  truthyNext chunk &&
    (match lastMsgOf chunk with
     | some lm =>
       let fa := getField lm "agent"
       jsonTruthyOpt fa && !isStrOptEq fa "supervisor" &&
         !isStrOptEq fa "user" && !isStrOptEq fa "planner"
     | none => false)

/-- Condition of the supervisor branch (route.ts 148):
    `chunk.next && chunk.next !== '__end__' && (chunk.supervisor || chunk.agent === 'supervisor')`. -/
def matchesSupervisorShape (chunk : Json) : Bool :=
  truthyNext chunk &&
    (jsonTruthyOpt (getField chunk "supervisor") ||
     isStrOptEq (getField chunk "agent") "supervisor")

/-- Condition of the agent-transition branch (route.ts 166-168): a last
    message attributed to a non-user agent. -/
def matchesTransitionShape (chunk : Json) : Bool :=
  match lastMsgOf chunk with
  | some lm =>
    jsonTruthyOpt (getField lm "agent") && !isStrOptEq (getField lm "agent") "user"
  | none => false

/-- Condition of the workflow-context branch (route.ts 185):
    `chunk.workflowContext && chunk.workflowContext !== prevContext`. -/
def matchesContextShape (chunk : Json) (prev : Option Json) : Bool :=
  jsonTruthyOpt (getField chunk "workflowContext") &&
    !optJsonBeq (getField chunk "workflowContext") prev

/-- `chunk.x ? 'present' : null` flags. -/
def presentFlag (o : Option Json) : Bool := jsonTruthyOpt o

/-- The dealData projection `{applied, pending, type}` of the routing
    branch; absent sub-fields are carried as `null`. -/
def dealSummary (d : Json) : Json :=
  Json.obj [("applied", (getField d "applied").getD Json.null),
            ("pending", (getField d "pending").getD Json.null),
            ("type", (getField d "type").getD Json.null)]

/-- The pendingProduct projection `{product, quantity}`. -/
def pendingProductSummary (p : Json) : Json :=
  Json.obj [("product", (getField p "product").getD Json.null),
            ("quantity", (getField p "quantity").getD Json.null)]

/-- A non-empty messages array whose last element is JSON `null`: reading
    `lastMsg.agent` on it throws a TypeError inside the function's `try`. -/
def lastMsgIsNull (chunk : Json) : Bool :=
  match lastMsgOf chunk with
  | some .null => true
  | _ => false

/-- `extractMetadata(chunk, prevContext)` (route.ts 97-205): the whole body
    sits in a `try` whose `catch` (lines 202-204) returns null metadata
    with the previous context.  The first matching branch wins and returns
    at once; only the workflow-context branch updates the carried context.
    The two `lastMsg.agent` reads (routing, lines 117-120, and transition,
    lines 166-168) throw a TypeError when the last message is `null`, which
    the catch turns into a null result — modelled by the two guard arms
    below. -/
def extractMetadata (chunk : Json) (prev : Option Json) :
    Option MetaData × Option Json :=
  if !(jsonTruthy chunk && isObjectTyped chunk) then (none, prev)
  else if (plannerRecValue chunk).isSome then
    (some (.plannerRec ((plannerRecValue chunk).getD Json.null)), prev)
  else if truthyNext chunk && lastMsgIsNull chunk then (none, prev)
  else if matchesRoutingShape chunk then
    (some (.routing
      (((lastMsgOf chunk).bind (fun lm => getField lm "agent")).getD Json.null)
      ((getField chunk "next").getD Json.null)
      (getField chunk "workflowContext")
      ((getField chunk "dealData").bind
        (fun d => if jsonTruthy d then some (dealSummary d) else none))
      ((getField chunk "pendingProduct").bind
        (fun p => if jsonTruthy p then some (pendingProductSummary p) else none))
      (presentFlag (getField chunk "cartData"))), prev)
  else if matchesSupervisorShape chunk then
    (some (.supervisor
      ((getField chunk "next").getD Json.null)
      (getField chunk "workflowContext")
      (presentFlag (getField chunk "dealData"))
      (presentFlag (getField chunk "pendingProduct"))
      (presentFlag (getField chunk "cartData"))), prev)
  else if lastMsgIsNull chunk then (none, prev)
  else if matchesTransitionShape chunk then
    (some (.transition
      (((lastMsgOf chunk).bind (fun lm => getField lm "agent")).getD Json.null)
      ((lastMsgOf chunk).bind (fun lm => getField lm "role"))
      ((lastMsgOf chunk).bind (fun lm => getField lm "timestamp"))), prev)
  else if matchesContextShape chunk prev then
    (some (.workflowCtx
      ((getField chunk "workflowContext").getD Json.null)
      (presentFlag (getField chunk "dealData"))
      (presentFlag (getField chunk "pendingProduct"))),
     getField chunk "workflowContext")
  else (none, prev)

/-- The per-chunk metadata emission of `responseStream` (route.ts 292-298):
    one `{type:'metadata'}` event when extraction produced a payload. -/
def emitMetadataEvents (chunk : Json) (prev : Option Json) : List MetaData :=
  match (extractMetadata chunk prev).1 with
  | some m => [m]
  | none => []

/-- Stated from the spec sentence for the refinement check: the chunk
    shapes in their priority order, each shape as the claim words it. -/
def firstMatchKind (chunk : Json) (prev : Option Json) : Option MetaKind :=
  if !(jsonTruthy chunk && isObjectTyped chunk) then none
  else if (plannerRecValue chunk).isSome then some .plannerRecommendation
  else if matchesRoutingShape chunk then some .agentRoutingDecision
  else if matchesSupervisorShape chunk then some .supervisorDecision
  else if matchesTransitionShape chunk then some .agentTransition
  else if matchesContextShape chunk prev then some .workflowContext
  else none

/-! ### Readable-text extraction and event emission (route.ts 207-423) -/

/-- Exact literal match; returns the rest of the input. -/
def matchLitEx : List Char → List Char → Option (List Char)
  | [], xs => some xs
  | _ :: _, [] => none
  | l :: ls, x :: xs => if l == x then matchLitEx ls xs else none

/-- Attempt `/"content"\s*:\s*"([^"]{1,2000})"/` at the current position,
    returning the capture. -/
def contentCaptureAt (xs : List Char) : Option String :=
  match matchLitEx (quoteChar :: "content".data ++ [quoteChar]) xs with
  | none => none
  | some r1 =>
    match skipWsL r1 with
    | ':' :: r2 =>
      (match skipWsL r2 with
       | c :: r3 =>
         if c == quoteChar then
           let run := r3.takeWhile (fun ch => !(ch == quoteChar))
           if run.isEmpty || run.length > 2000 then none
           else
             match r3.drop run.length with
             | q :: _ => if q == quoteChar then some (String.mk run) else none
             | [] => none
         else none
       | [] => none)
    | _ => none

/-- First match of the content-capture regex over the serialized object. -/
def contentCaptureSearch : List Char → Option String
  | [] => none
  | c :: rest =>
    match contentCaptureAt (c :: rest) with
    | some s => some s
    | none => contentCaptureSearch rest

/-- The per-agent sub-object keys probed by `extractReadableTexts`. -/
def agentKeys : List String :=
  ["planner", "supervisor", "catalog", "deals", "cart_and_checkout",
   "notification_agent"]

/-- `extractReadableTexts` (route.ts 207-263) with recursion fuel
    (`jsonSize` dominates the nesting depth): probe the direct content
    fields, recurse into the per-agent sub-objects and the messages array,
    then fall back to the serialized-JSON content capture and finally to
    the serialization itself when the value is not plan-like. -/
def extractReadableTextsF : Nat → Json → List String
  | 0, _ => []
  | fuel + 1, obj =>
    match obj with
    | .null => []
    | .str s => if !isPlanLike (.str s) then [s] else []
    | _ =>
      let out1 :=
        match (getField obj "message").bind (fun m => getField m "kwargs") with
        | some kw =>
          (match getField kw "content" with
           | some (.str c) => if !isPlanLike (.str c) then [c] else []
           | _ => [])
        | none => []
      let out2 :=
        match getField obj "content" with
        | some (.str c) => if !isPlanLike (.str c) then [c] else []
        | _ => []
      let out3 :=
        match getField obj "message" with
        | some m =>
          (match getField m "content" with
           | some (.str c) => if !isPlanLike (.str c) then [c] else []
           | _ => [])
        | none => []
      let out4 := agentKeys.flatMap fun k =>
        match getField obj k with
        | some v => if jsonTruthy v then extractReadableTextsF fuel v else []
        | none => []
      let out5 :=
        match getField obj "messages" with
        | some (.arr ms) =>
          ms.flatMap fun m =>
            if jsonTruthy m && jsonTruthyOpt (getField m "message") then
              extractReadableTextsF fuel ((getField m "message").getD Json.null)
            else
              match getField m "content" with
              | some (.str c) =>
                if jsonTruthy m then (if !isPlanLike (.str c) then [c] else [])
                else []
              | _ =>
                match m with
                | .str s =>
                  if jsonTruthy (.str s) && !isPlanLike (.str s) then [s] else []
                | _ => []
        | _ => []
      let out := out1 ++ out2 ++ out3 ++ out4 ++ out5
      let outA :=
        if out.isEmpty then
          match contentCaptureSearch (jsonStringify obj).data with
          | some c => if !isPlanLike (.str c) then [c] else []
          | none => []
        else []
      let out' := out ++ outA
      if out'.isEmpty && !isPlanLike obj then [jsonStringify obj] else out'

/-- `extractReadableTexts` at its natural fuel. -/
def extractReadableTexts (j : Json) : List String :=
  extractReadableTextsF (jsonSize j) j

/-- The NDJSON events `responseStream` enqueues, by their `type` tag. -/
inductive OutEvent where
  | passthrough (payload : Json)
  | meta (payload : Json)
  | metadataEv (m : MetaData)
  | statusEv (text : String) (autoRemoveMs agent : Option Json)
  | messageEv (content : String)
  | rawEv (text : String)

/-- `parsed.progress?.autoRemoveMs`, included in the status payload when
    truthy (route.ts 333-335). -/
def autoRemoveOf (p : Json) : Option Json :=
  match (getField p "progress").bind (fun pr => getField pr "autoRemoveMs") with
  | some v => if jsonTruthy v then some v else none
  | none => none

/-- `parsed.agent || parsed.progress?.agent`, included when truthy
    (route.ts 338-340). -/
def agentOf (p : Json) : Option Json :=
  if jsonTruthyOpt (getField p "agent") then getField p "agent"
  else if jsonTruthyOpt ((getField p "progress").bind (fun pr => getField pr "agent")) then
    (getField p "progress").bind (fun pr => getField pr "agent")
  else none

/-- `parsed && typeof parsed.type === 'string'` (route.ts 311). -/
def isTypedEvent (p : Json) : Bool :=
  jsonTruthy p &&
    (match getField p "type" with
     | some (.str _) => true
     | _ => false)

/-- `indexOf` of a character. -/
def idxOfAux (c : Char) : Nat → List Char → Option Nat
  | _, [] => none
  | i, x :: rest => if x == c then some i else idxOfAux c (i + 1) rest

/-- First index of a character. -/
def idxOf (c : Char) (xs : List Char) : Option Nat := idxOfAux c 0 xs

/-- Last index of a character. -/
def lastIdxOf (c : Char) (xs : List Char) : Option Nat :=
  match idxOf c xs.reverse with
  | some i => some (xs.length - 1 - i)
  | none => none

/-- The embedded-JSON attempt of the non-JSON line path (route.ts 352-370):
    slice from the first brace to the last, decode, and emit a meta event
    or message events; `none` when there is no well-formed slice, which
    falls through to the raw handling. -/
def embeddedJsonEvents (l : String) : Option (List OutEvent) :=
  match idxOf lbraceChar l.data, lastIdxOf rbraceChar l.data with
  | some first, some last =>
    if first < last then
      let sub := (l.data.drop first).take (last + 1 - first)
      match jsonParseL sub with
      | some subParsed =>
        some (if isPlanLike subParsed then [.meta subParsed]
              else (extractReadableTexts subParsed).map OutEvent.messageEv)
      | none => none
    else none
  | _, _ => none

/-- Handling of one line of a textual chunk (route.ts 306-380). -/
def processLine (l : String) : List OutEvent :=
  match jsonParse l with
  | some parsed =>
    if isTypedEvent parsed then [.passthrough parsed]
    else if isPlanLike parsed then [.meta parsed]
    else
      let ephemeralMarker := isEphemeralChunk parsed
      (extractReadableTexts parsed).map fun t =>
        if isStatusLike t || ephemeralMarker then
          .statusEv t (autoRemoveOf parsed) (agentOf parsed)
        else .messageEv t
  | none =>
    match embeddedJsonEvents l with
    | some evs => evs
    | none =>
      if !isPlanLike (.str l) then
        (if isStatusLike l then [.statusEv l none none] else [.rawEv l])
      else []

/-- Strip the `\r` of a `\r\n` separator. -/
def dropTrailingCr (xs : List Char) : List Char :=
  match xs.reverse with
  | c :: rest => if c == '\r' then rest.reverse else xs
  | [] => xs

/-- `String(text).split(/\r?\n/).filter(Boolean)`. -/
def textChunkLines (s : String) : List String :=
  (((splitOnL ['\n'] s.data).map dropTrailingCr).filter
    (fun l => !l.isEmpty)).map String.mk

/-- The body of `responseStream`'s `for await` loop for one chunk
    (route.ts 290-423): metadata extraction and emission first, then the
    text-line path for strings, the readable-text path for objects (and
    `null`, whose `typeof` is `'object'`), and the stringify fallback for
    other primitives. -/
def processChunk (chunk : Json) (prev : Option Json) :
    List OutEvent × Option Json :=
  let mdr := extractMetadata chunk prev
  let mdEvents :=
    match mdr.1 with
    | some m => [OutEvent.metadataEv m]
    | none => []
  match chunk with
  | .str s => (mdEvents ++ (textChunkLines s).flatMap processLine, mdr.2)
  | c =>
    if isObjectTyped c then
      let ephemeralMarker := isEphemeralChunk c
      (mdEvents ++ (extractReadableTexts c).map (fun t =>
        if isStatusLike t || ephemeralMarker then
          OutEvent.statusEv t (autoRemoveOf c) (agentOf c)
        else OutEvent.messageEv t), mdr.2)
    else
      let text := jsonStringify c
      (mdEvents ++ [if isStatusLike text then OutEvent.statusEv text none none
                    else OutEvent.messageEv text], mdr.2)

/-- A user-visible chat `message` event. -/
def isMessageEvent : OutEvent → Bool
  | .messageEv _ => true
  | _ => false

/-- A metadata-bearing event: the `meta` passthrough of a plan-like
    payload, or an extracted `metadata` event. -/
def isMetadataKindEvent : OutEvent → Bool
  | .meta _ => true
  | .metadataEv _ => true
  | _ => false

/-- The plan-like chunk of the spec's test, as a JSON text line. -/
def planChunkLine : String :=
  "\x7b\"action\":\"delegate\",\"confidence\":0.9\x7d"

/-- The same plan-like chunk as a decoded object. -/
def planChunkObj : Json :=
  Json.obj [("action", Json.str "delegate"), ("confidence", Json.num "0.9")]

/-- A chunk whose messages array ends in `null` while the supervisor shape
    is also present: the routing branch's `lastMsg.agent` read throws. -/
def nullMsgSupervisorChunk : Json :=
  Json.obj [("next", Json.str "catalog"), ("messages", Json.arr [Json.null]),
            ("supervisor", Json.bool true)]

/-- A chunk whose messages array ends in `null` while a fresh workflow
    context is present: the transition branch's `lastMsg.agent` read throws
    before the context branch is reached. -/
def nullMsgContextChunk : Json :=
  Json.obj [("messages", Json.arr [Json.null]),
            ("workflowContext", Json.str "shopping")]

/-- A chunk carrying only the supervisor shape (no messages array). -/
def supervisorShapeChunk : Json :=
  Json.obj [("next", Json.str "catalog"), ("supervisor", Json.bool true)]

/-! ## Supporting lemmas -/

/-- `strEqL` decides string equality. -/
theorem strEqL_iff (a b : String) : strEqL a b = true ↔ a = b := by
  simp [strEqL, String.ext_iff]

/-- Lookup after an overwrite-set at the same key. -/
theorem alistGet_set_self {β : Type} (m : List (String × β)) (k : String) (v : β) :
    alistGet (alistSet m k v) k = some v := by
  simp [alistSet, alistGet, strEqL]

/-- Lookup through a key-predicate filter. -/
theorem alistGet_filter_not {β : Type} (f : String → Bool) (k : String) :
    ∀ m : List (String × β),
      alistGet (m.filter (fun p => !f p.1)) k =
        if f k then none else alistGet m k
  | [] => by simp [alistGet]
  | (k', v) :: rest => by
    by_cases hk : k' = k
    · subst hk
      by_cases hf : f k' <;> simp [hf, alistGet, strEqL, alistGet_filter_not f k' rest]
    · have hne : strEqL k' k = false := by
        rw [Bool.eq_false_iff]
        intro hcontra
        exact hk ((strEqL_iff k' k).mp hcontra)
      by_cases hf : f k' <;>
        simp [hf, alistGet, hne, alistGet_filter_not f k rest]

/-- All-failure runs of the retry loop that cover the budget end in the
    apology result. -/
theorem retryLoop_all_failures (max : Nat) (agentId : String) :
    ∀ (attempts : List AttemptOutcome) (attempt : Nat),
      (∀ o ∈ attempts, ∃ t, o = AttemptOutcome.failure t) →
      max + 1 ≤ attempt + attempts.length →
      attempts ≠ [] →
      callAgentRetryLoop max agentId attempt attempts = apologyResult agentId
  | [], _, _, _, hne => absurd rfl hne
  | o :: rest, attempt, hfail, hlen, _ => by
    obtain ⟨t, rfl⟩ := hfail o (List.mem_cons_self o rest)
    cases t with
    | false => simp [callAgentRetryLoop]
    | true =>
      by_cases hm : attempt + 1 > max
      · simp [callAgentRetryLoop, hm]
      · have hrest : rest ≠ [] := by
          intro h
          subst h
          simp at hlen
          omega
        have hlen' : max + 1 ≤ (attempt + 1) + rest.length := by
          simp at hlen
          omega
        have ih := retryLoop_all_failures max agentId rest (attempt + 1)
          (fun o ho => hfail o (List.mem_cons_of_mem _ ho)) hlen' hrest
        simp [callAgentRetryLoop, hm, ih]

/-- The spec's SSE round-trip input. -/
def sseTestBody : String :=
  "data: \x7b\"messages\":[\x7b\"role\":\"assistant\",\"content\":\"hi\"\x7d]\x7d\n\ndata: [DONE]\n\n"

/-! ## Claims -/

/-- C1: `withAsyncAuthorization` (the standards wrapper
    `withCIBAAuthorization`) never invokes the wrapped action unless the
    authorization status is `approved` at that moment, and on denial or any
    polling/initiation failure it sets the state to `denied` and raises
    without invoking the action. -/
theorem withCIBA_gates_action (st0 : AuthState) (uid : Option String)
    (bmsg : String) (poll : PollOutcome) (act : Except String String) :
    ((withCIBAAuthorization st0 uid bmsg poll act).invoked = true →
      (withCIBAAuthorization st0 uid bmsg poll act).statusAtInvoke =
        some AuthStatus.approved) ∧
    (∀ u, uid = some u →
      (poll = PollOutcome.denied ∨ ∃ m, poll = PollOutcome.failed m) →
      (withCIBAAuthorization st0 uid bmsg poll act).invoked = false ∧
      (withCIBAAuthorization st0 uid bmsg poll act).final.status = AuthStatus.denied ∧
      ∃ e, (withCIBAAuthorization st0 uid bmsg poll act).outcome = Except.error e) := by
  constructor
  · intro hinv
    cases uid <;> cases poll <;> cases act <;>
      simp_all [withCIBAAuthorization]
  · intro u hu hdeny
    subst hu
    rcases hdeny with h | ⟨m, h⟩ <;> subst h <;>
      simp [withCIBAAuthorization]

/-- Witness for C1 at a concrete denial. -/
theorem withCIBA_gates_action_witness :
    (withCIBAAuthorization ⟨AuthStatus.idle, none⟩ (some "auth0|u") "m"
      PollOutcome.denied (Except.ok "r")).invoked = false ∧
    (withCIBAAuthorization ⟨AuthStatus.idle, none⟩ (some "auth0|u") "m"
      PollOutcome.denied (Except.ok "r")).final.status = AuthStatus.denied ∧
    ∃ e, (withCIBAAuthorization ⟨AuthStatus.idle, none⟩ (some "auth0|u") "m"
      PollOutcome.denied (Except.ok "r")).outcome = Except.error e :=
  (withCIBA_gates_action ⟨AuthStatus.idle, none⟩ (some "auth0|u") "m"
    PollOutcome.denied (Except.ok "r")).2 "auth0|u" rfl (Or.inl rfl)

/-- C2 (code bug): an `expired_token` response does not stop the polling
    loop.  The dedicated throw is caught by the loop's own catch block,
    whose re-throw filter only matches messages containing
    `"CIBA polling error"`; with `maxAttempts = 2` an expired response on
    every attempt surfaces as the generic polling failure (never as the
    expired error), and an expired response followed by a token response
    even resolves to approval. -/
theorem pollCIBA_expired_token_swallowed :
    pollCIBAResult 2 (fun _ => TokenAttempt.errExpired) =
      PollResult.thrown failedAfterMaxMsg ∧
    pollCIBAResult 2
      (fun n => if n == 1 then TokenAttempt.errExpired else TokenAttempt.ok) =
      PollResult.tokens ∧
    failedAfterMaxMsg ≠ expiredMsg := by
  refine ⟨rfl, rfl, ?_⟩
  decide

/-- C3 counterexample: `getAuthorizationState` moves the status directly
    from `requested` to `approved` when the shop tool reports approval,
    which skips the `pending` step of the chain. -/
theorem getAuthorizationState_skips_pending :
    (getAuthorizationState true
      { status := AuthStatus.requested, message := none }).status =
      AuthStatus.approved ∧
    chainStepB AuthStatus.requested AuthStatus.approved = false ∧
    chainOk AuthStatus.requested AuthStatus.approved = false := by
  decide

/-- C3 amended: each coordinator operation applied at its intended
    pre-state performs a no-op or a single chain step, except that
    `getAuthorizationState` may advance `requested` directly to `approved`
    when the shop tool reports approval. -/
theorem authStatus_chain_amended (msg : String) (st : AuthState)
    (pollOk shopApproved : Bool) :
    (st.status = AuthStatus.idle →
      chainOk st.status (bindingMessageTransition msg st).status = true) ∧
    (st.status = AuthStatus.requested →
      chainOk st.status (onAuthorizationRequestStart st).status = true) ∧
    (st.status = AuthStatus.pending →
      chainOk st.status (onAuthorizationRequestResolve pollOk st).status = true) ∧
    (st.status = AuthStatus.approved ∨ st.status = AuthStatus.denied →
      chainOk st.status (resetAuthorizationState st).status = true) ∧
    (chainOk st.status (getAuthorizationState shopApproved st).status = true ∨
      ((getAuthorizationState shopApproved st).status = AuthStatus.approved ∧
        st.status = AuthStatus.requested ∧ shopApproved = true)) := by
  obtain ⟨s, m⟩ := st
  cases s <;> cases pollOk <;> cases shopApproved <;>
    simp [bindingMessageTransition, onAuthorizationRequestStart,
      onAuthorizationRequestResolve, resetAuthorizationState,
      getAuthorizationState, chainOk, chainStepB]

/-- Witness for C3's amended theorem at the idle state. -/
theorem authStatus_chain_amended_witness :
    chainOk AuthStatus.idle
      (bindingMessageTransition "m" ⟨AuthStatus.idle, none⟩).status = true :=
  (authStatus_chain_amended "m" ⟨AuthStatus.idle, none⟩ true true).1 rfl

/-- C4 counterexample: with TTL 10 and a binding last touched at 0,
    `ensureThread` at time 11 still returns the cached id `t1` even though
    the binding is already stale (no expiry check happens at lookup). -/
theorem ensureThread_returns_stale_binding :
    (ensureThread { threads := [("c", "t1")], timestamps := [("c", 0)] }
      11 "c" (CreateOutcome.created "t2")).2 = Except.ok "t1" ∧
    isStaleAt { threads := [("c", "t1")], timestamps := [("c", 0)] } 11 10 "c" =
      true := by
  exact ⟨rfl, rfl⟩

/-- C4 amended: `ensureThread` returns the cached id whenever the binding
    exists (no expiry check at lookup) and refreshes its timestamp; the
    sweep removes exactly the bindings idle longer than the TTL; and after
    a sweep evicted a conversation, the next call creates and caches a new
    thread id. -/
theorem ensureThread_cache_and_sweep :
    (∀ (st : ThreadCache) (now : Nat) (cid tid : String) (create : CreateOutcome),
      alistGet st.threads cid = some tid →
      (ensureThread st now cid create).2 = Except.ok tid ∧
      (ensureThread st now cid create).1.threads = st.threads ∧
      alistGet (ensureThread st now cid create).1.timestamps cid = some now) ∧
    (∀ (st : ThreadCache) (now ttl : Nat) (cid : String),
      alistGet (evictStaleThreads st now ttl).threads cid =
        if isStaleAt st now ttl cid then none else alistGet st.threads cid) ∧
    (∀ (st : ThreadCache) (now ttl now2 : Nat) (cid tid' : String),
      isStaleAt st now ttl cid = true →
      (ensureThread (evictStaleThreads st now ttl) now2 cid
        (CreateOutcome.created tid')).2 = Except.ok tid' ∧
      alistGet (ensureThread (evictStaleThreads st now ttl) now2 cid
        (CreateOutcome.created tid')).1.threads cid = some tid') := by
  refine ⟨?_, ?_, ?_⟩
  · intro st now cid tid create hget
    simp [ensureThread, hget, alistGet_set_self]
  · intro st now ttl cid
    exact alistGet_filter_not (isStaleAt st now ttl) cid st.threads
  · intro st now ttl now2 cid tid' hstale
    have hget : alistGet (evictStaleThreads st now ttl).threads cid = none := by
      simp only [evictStaleThreads]
      rw [alistGet_filter_not (isStaleAt st now ttl) cid st.threads, hstale]
      simp
    simp [ensureThread, hget, alistGet_set_self]

/-- Witness for C4's amended theorem on a concrete stale cache. -/
theorem ensureThread_cache_and_sweep_witness :
    (ensureThread (evictStaleThreads
      { threads := [("c", "t1")], timestamps := [("c", 0)] } 11 10) 12 "c"
      (CreateOutcome.created "t2")).2 = Except.ok "t2" ∧
    alistGet (ensureThread (evictStaleThreads
      { threads := [("c", "t1")], timestamps := [("c", 0)] } 11 10) 12 "c"
      (CreateOutcome.created "t2")).1.threads "c" = some "t2" :=
  ensureThread_cache_and_sweep.2.2
    { threads := [("c", "t1")], timestamps := [("c", 0)] } 11 10 12 "c" "t2" rfl

/-- C5: a non-transient failure, or failures through the whole retry
    budget, never raise: the call returns the synthetic assistant apology
    whose text names the unavailable agent id. -/
theorem callAgent_absorbs_failures (max : Nat) (agentId : String) :
    (∀ rest, callAgentWithStream max agentId
      (AttemptOutcome.failure false :: rest) = apologyResult agentId) ∧
    (∀ attempts : List AttemptOutcome,
      (∀ o ∈ attempts, ∃ t, o = AttemptOutcome.failure t) →
      max + 1 ≤ attempts.length →
      callAgentWithStream max agentId attempts = apologyResult agentId) ∧
    (apologyResult agentId).content =
      "I apologize, but I\x27m having trouble connecting to the " ++ agentId ++
        " service right now. Please try again in a moment." ∧
    (apologyResult agentId).messages =
      [Json.obj [("role", Json.str "assistant"),
                 ("content", Json.str (apologyContent agentId))]] := by
  refine ⟨?_, ?_, rfl, rfl⟩
  · intro rest
    simp [callAgentWithStream, callAgentRetryLoop]
  · intro attempts hfail hlen
    have hne : attempts ≠ [] := by
      intro h
      subst h
      simp at hlen
    exact retryLoop_all_failures max agentId attempts 0 hfail (by omega) hne

/-- Witness for C5 on a one-attempt budget with a transient failure. -/
theorem callAgent_absorbs_failures_witness :
    callAgentWithStream 0 "catalog" [AttemptOutcome.failure true] =
      apologyResult "catalog" :=
  (callAgent_absorbs_failures 0 "catalog").2.1 [AttemptOutcome.failure true]
    (by
      intro o ho
      simp at ho
      exact ⟨true, ho⟩)
    (by simp)

/-- C6: the spec's SSE body decodes to the accumulated content `"hi"`
    through the gateway's block framing and the newest-to-oldest assistant
    selection. -/
theorem sse_roundtrip_hi :
    (foldStreamResult (parseSSE [sseTestBody])).content = "hi" := by
  rfl

/-- C7: for retry attempts 1..3 with `baseDelay = 1000` and jitter below
    100 ms, the backoff delays fall in `[1000,1100)`, `[2000,2100)` and
    `[4000,4100)`. -/
theorem backoff_windows (jitter : Nat) (h : jitter < 100) :
    (1000 ≤ backoffDelay 1000 1 jitter ∧ backoffDelay 1000 1 jitter < 1100) ∧
    (2000 ≤ backoffDelay 1000 2 jitter ∧ backoffDelay 1000 2 jitter < 2100) ∧
    (4000 ≤ backoffDelay 1000 3 jitter ∧ backoffDelay 1000 3 jitter < 4100) := by
  unfold backoffDelay
  norm_num
  omega

/-- Witness for C7 at jitter 42. -/
theorem backoff_windows_witness :
    (1000 ≤ backoffDelay 1000 1 42 ∧ backoffDelay 1000 1 42 < 1100) ∧
    (2000 ≤ backoffDelay 1000 2 42 ∧ backoffDelay 1000 2 42 < 2100) ∧
    (4000 ≤ backoffDelay 1000 3 42 ∧ backoffDelay 1000 3 42 < 4100) :=
  backoff_windows 42 (by decide)

/-- C8 counterexample: the interleaving where both calls check the cache
    before either write issues two creation calls and resolves the two
    calls to different thread ids. -/
theorem ensureThread_race_two_creations :
    (runSched "c" "t1" "t2" initConc [true, false, true, false]).createCalls = 2 ∧
    (runSched "c" "t1" "t2" initConc [true, false, true, false]).taskA =
      TaskPC.finished "t1" ∧
    (runSched "c" "t1" "t2" initConc [true, false, true, false]).taskB =
      TaskPC.finished "t2" ∧
    ("t1" : String) ≠ "t2" := by
  refine ⟨rfl, rfl, rfl, ?_⟩
  decide

/-- C8 amended: when the two calls do not interleave (one runs to
    completion before the other starts) they resolve to the same thread id
    and only one creation call is issued. -/
theorem ensureThread_sequential_single_creation (cid tidA tidB : String) :
    (runSched cid tidA tidB initConc [true, true, false, false]).taskA =
      TaskPC.finished tidA ∧
    (runSched cid tidA tidB initConc [true, true, false, false]).taskB =
      TaskPC.finished tidA ∧
    (runSched cid tidA tidB initConc [true, true, false, false]).createCalls = 1 := by
  simp [runSched, schedStep, taskStep, initConc, alistGet, alistSet, strEqL]

/-- C9: the plan-like chunk `{"action":"delegate","confidence":0.9}`,
    whether received as a JSON text line or as an object, never produces a
    `message` event; every event it produces is a metadata event (as a text
    line it is surfaced as exactly one `meta` event). -/
theorem plan_like_never_chat_text :
    ((processChunk (Json.str planChunkLine) none).1 ++
      (processChunk planChunkObj none).1).all
      (fun e => isMetadataKindEvent e && !isMessageEvent e) = true ∧
    (processChunk (Json.str planChunkLine) none).1.length = 1 := by
  exact ⟨rfl, rfl⟩

/-- C10 counterexample: when the last message is JSON `null`, the
    `lastMsg.agent` read throws and the catch returns null metadata — so a
    chunk whose first-match shape is the supervisor decision (or a changed
    workflow context) emits nothing at all, and the carried context is not
    updated, refuting the first-match-is-emitted reading of the claim. -/
theorem extractMetadata_null_message_aborts :
    emitMetadataEvents nullMsgSupervisorChunk none = [] ∧
    firstMatchKind nullMsgSupervisorChunk none =
      some MetaKind.supervisorDecision ∧
    emitMetadataEvents nullMsgContextChunk none = [] ∧
    firstMatchKind nullMsgContextChunk none = some MetaKind.workflowContext ∧
    (extractMetadata nullMsgContextChunk none).2 = none := by
  exact ⟨rfl, rfl, rfl, rfl, rfl⟩

/-- C10 amended: per chunk, at most one metadata event is emitted, and
    whenever one is emitted its kind is the first match of the fixed
    priority planner recommendation → agent routing → supervisor decision →
    agent transition → workflow-context change (a chunk whose messages
    array ends in `null` aborts extraction through the internal catch and
    emits nothing). -/
theorem extractMetadata_first_match_amended (chunk : Json) (prev : Option Json) :
    (emitMetadataEvents chunk prev).length ≤ 1 ∧
    ∀ m ∈ emitMetadataEvents chunk prev,
      some (metaKindOf m) = firstMatchKind chunk prev := by
  constructor
  · unfold emitMetadataEvents
    cases (extractMetadata chunk prev).1 <;> simp
  · intro m hm
    unfold emitMetadataEvents at hm
    have h : ((extractMetadata chunk prev).1).map metaKindOf =
          firstMatchKind chunk prev ∨
        (extractMetadata chunk prev).1 = none := by
      unfold extractMetadata firstMatchKind
      split_ifs <;> simp [metaKindOf]
    cases hcase : (extractMetadata chunk prev).1 with
    | none =>
      rw [hcase] at hm
      simp at hm
    | some payload =>
      rw [hcase] at hm
      simp at hm
      subst hm
      rcases h with h | h
      · rw [hcase] at h
        simpa using h
      · rw [hcase] at h
        exact absurd h (by simp)

/-- Witness for C10's amended theorem at a chunk that does emit. -/
theorem extractMetadata_first_match_amended_witness :
    some (metaKindOf (MetaData.supervisor (Json.str "catalog") none
        false false false)) =
      firstMatchKind supervisorShapeChunk none :=
  (extractMetadata_first_match_amended supervisorShapeChunk none).2
    (MetaData.supervisor (Json.str "catalog") none false false false)
    (by
      have h : emitMetadataEvents supervisorShapeChunk none =
          [MetaData.supervisor (Json.str "catalog") none false false false] := rfl
      rw [h]
      exact List.mem_singleton_self _)
